import Mathlib

/-!
Verification of the `api-resp` crate (src/lib.rs) against its specification.

The development shallowly embeds the crate's data model and operations:

* `Json` models `serde_json::Value` (numbers restricted to the integers the
  crate's contract exercises; floating point is out of scope).
* `renderL` / `render` model `serde_json::to_string`'s compact wire output,
  including its string-escaping rules (short escapes for quote, backslash and
  the named control characters, `\u00XX` for the remaining control characters).
* `parseValue` / `parseJson` model `serde_json`'s strict JSON parser (fuel-based
  recursion; the fuel is the input length plus one, which suffices because every
  recursive step consumes input). The concrete inputs used in this file contain
  no insignificant whitespace, so whitespace skipping is not modelled.
* `ApiResp`, its constructors and accessors, `to_json`, `DaoResult`,
  `to_json_str`, and the two rollback macros are translated line by line from
  src/lib.rs. Logging (the `log::error!` calls) is modelled by returning the
  list of emitted log lines next to each result.
-/

set_option maxHeartbeats 1000000

/-- Model of `serde_json::Value`: null, booleans, (integer) numbers, strings,
arrays and objects. Objects keep the field order in which serde's derived
serializer emits them. -/
inductive Json : Type where
  | null : Json
  | bool (b : Bool) : Json
  | num (n : Int) : Json
  | str (s : String) : Json
  | arr (elems : List Json) : Json
  | obj (members : List (String × Json)) : Json

/-- Lowercase hex digit for `n < 16`, as used by serde_json's `\u00XX` escapes. -/
def hexChar (n : Nat) : Char :=
  Char.ofNat (if n < 10 then 48 + n else 87 + n)

/-- JSON string escaping of one character, following serde_json: `"` and `\`
get a backslash escape, the control characters 0x08, 0x09, 0x0A, 0x0C, 0x0D get
their short names, the remaining control characters below 0x20 get `\u00XX`,
and every other character is emitted verbatim. -/
def escapeChar (c : Char) : List Char :=
  if c = '"' then ['\\', '"']
  else if c = '\\' then ['\\', '\\']
  else if c = '\x08' then ['\\', 'b']
  else if c = '\t' then ['\\', 't']
  else if c = '\n' then ['\\', 'n']
  else if c = '\x0c' then ['\\', 'f']
  else if c = '\r' then ['\\', 'r']
  else if c.toNat < 0x20 then
    '\\' :: 'u' :: '0' :: '0' :: hexChar (c.toNat / 16) :: [hexChar (c.toNat % 16)]
  else [c]

/-- Escape every character of a JSON string body. -/
def escapeList : List Char → List Char
  | [] => []
  | c :: cs => escapeChar c ++ escapeList cs

/-- Decimal digit character for `n < 10`. -/
def digitChar (n : Nat) : Char := Char.ofNat (48 + n)

/-- Decimal digits of `n`, most significant first; `f` is recursion fuel
(`f > n` suffices since `n / 10 < n`). -/
def natDigitsAux : Nat → Nat → List Char
  | 0, _ => []
  | f + 1, n =>
    if n < 10 then [digitChar n]
    else natDigitsAux f (n / 10) ++ [digitChar (n % 10)]

/-- Decimal digits of `n`, most significant first. -/
def natDigits (n : Nat) : List Char := natDigitsAux (n + 1) n

/-- Decimal rendering of an integer, matching Rust's `i32` `Display` output
(as serde_json emits numbers). -/
def intChars (n : Int) : List Char :=
  if n < 0 then '-' :: natDigits (-n).toNat else natDigits n.toNat

mutual

/-- Compact JSON rendering of a value as a character list, modelling
`serde_json::to_string` (no insignificant whitespace, object fields in order). -/
def renderL : Json → List Char
  | .null => 'n' :: 'u' :: 'l' :: ['l']
  | .bool true => 't' :: 'r' :: 'u' :: ['e']
  | .bool false => 'f' :: 'a' :: 'l' :: 's' :: ['e']
  | .num n => intChars n
  | .str s => '"' :: (escapeList s.data ++ ['"'])
  | .arr [] => ['[', ']']
  | .arr (x :: xs) => '[' :: (renderL x ++ renderRestL xs) ++ [']']
  | .obj [] => ['{', '}']
  | .obj (kv :: kvs) => '{' :: (renderMemberL kv ++ renderMembersRestL kvs) ++ ['}']

/-- Rendering of the remaining array elements, each preceded by a comma. -/
def renderRestL : List Json → List Char
  | [] => []
  | x :: xs => ',' :: renderL x ++ renderRestL xs

/-- Rendering of one object member: quoted key, colon, value. -/
def renderMemberL : String × Json → List Char
  | (k, v) => '"' :: (escapeList k.data ++ ['"', ':']) ++ renderL v

/-- Rendering of the remaining object members, each preceded by a comma. -/
def renderMembersRestL : List (String × Json) → List Char
  | [] => []
  | kv :: kvs => ',' :: renderMemberL kv ++ renderMembersRestL kvs

end

/-- Compact JSON rendering of a value as a `String`. -/
def render (j : Json) : String := String.mk (renderL j)

/-- Value of a hex digit character, or `none`. -/
def parseHexDigit (c : Char) : Option Nat :=
  if '0' ≤ c ∧ c ≤ '9' then some (c.toNat - 48)
  else if 'a' ≤ c ∧ c ≤ 'f' then some (c.toNat - 87)
  else if 'A' ≤ c ∧ c ≤ 'F' then some (c.toNat - 55)
  else none

/-- Parse the body of a JSON string up to (and consuming) the closing quote,
undoing the escapes of `escapeChar`. Unescaped control characters are rejected,
as serde_json does. -/
def parseStringChars : List Char → Option (List Char × List Char)
  | [] => none
  | c :: cs =>
    if c = '"' then some ([], cs)
    else if c = '\\' then
      match cs with
      | [] => none
      | e :: cs2 =>
        if e = '"' then (parseStringChars cs2).map (fun p => ('"' :: p.1, p.2))
        else if e = '\\' then (parseStringChars cs2).map (fun p => ('\\' :: p.1, p.2))
        else if e = '/' then (parseStringChars cs2).map (fun p => ('/' :: p.1, p.2))
        else if e = 'b' then (parseStringChars cs2).map (fun p => ('\x08' :: p.1, p.2))
        else if e = 't' then (parseStringChars cs2).map (fun p => ('\t' :: p.1, p.2))
        else if e = 'n' then (parseStringChars cs2).map (fun p => ('\n' :: p.1, p.2))
        else if e = 'f' then (parseStringChars cs2).map (fun p => ('\x0c' :: p.1, p.2))
        else if e = 'r' then (parseStringChars cs2).map (fun p => ('\r' :: p.1, p.2))
        else if e = 'u' then
          match cs2 with
          | h1 :: h2 :: h3 :: h4 :: cs3 =>
            match parseHexDigit h1, parseHexDigit h2, parseHexDigit h3, parseHexDigit h4 with
            | some a, some b, some c3, some d =>
              let n := a * 4096 + b * 256 + c3 * 16 + d
              if n < 0xD800 then (parseStringChars cs3).map (fun p => (Char.ofNat n :: p.1, p.2))
              else none
            | _, _, _, _ => none
          | _ => none
        else none
    else if c.toNat < 0x20 then none
    else (parseStringChars cs).map (fun p => (c :: p.1, p.2))

/-- Greedily consume decimal digits, accumulating their value onto `acc`. -/
def takeDigitsAux : List Char → Nat → Nat × List Char
  | [], acc => (acc, [])
  | c :: cs, acc =>
    if c.isDigit then takeDigitsAux cs (acc * 10 + (c.toNat - 48)) else (acc, c :: cs)

/-- Parse a nonempty run of decimal digits into a natural number. -/
def parseNatNum : List Char → Option (Nat × List Char)
  | [] => none
  | c :: cs => if c.isDigit then some (takeDigitsAux cs (c.toNat - 48)) else none

mutual

/-- Parse one JSON value. `f` is recursion fuel; an input of length `l` needs at
most `l + 1` fuel because every recursive call strictly consumes input. -/
def parseValue : Nat → List Char → Option (Json × List Char)
  | 0, _ => none
  | f + 1, cs =>
    match cs with
    | [] => none
    | c :: rest =>
      if c = 'n' then
        match rest with
        | 'u' :: 'l' :: 'l' :: r => some (.null, r)
        | _ => none
      else if c = 't' then
        match rest with
        | 'r' :: 'u' :: 'e' :: r => some (.bool true, r)
        | _ => none
      else if c = 'f' then
        match rest with
        | 'a' :: 'l' :: 's' :: 'e' :: r => some (.bool false, r)
        | _ => none
      else if c = '"' then
        (parseStringChars rest).map (fun p => (.str (String.mk p.1), p.2))
      else if c = '[' then
        if rest.head? = some ']' then some (.arr [], rest.tail)
        else (parseElems f rest).map (fun p => (.arr p.1, p.2))
      else if c = '{' then
        if rest.head? = some '}' then some (.obj [], rest.tail)
        else (parseMembers f rest).map (fun p => (.obj p.1, p.2))
      else if c = '-' then
        (parseNatNum rest).map (fun p => (.num (-(p.1 : Int)), p.2))
      else if c.isDigit then
        (parseNatNum (c :: rest)).map (fun p => (.num (p.1 : Int), p.2))
      else none

/-- Parse the elements of a nonempty array after the opening bracket, consuming
the closing bracket. -/
def parseElems : Nat → List Char → Option (List Json × List Char)
  | 0, _ => none
  | f + 1, cs =>
    match parseValue f cs with
    | none => none
    | some (j, r) =>
      match r with
      | [] => none
      | c :: r2 =>
        if c = ',' then (parseElems f r2).map (fun p => (j :: p.1, p.2))
        else if c = ']' then some ([j], r2)
        else none

/-- Parse the members of a nonempty object after the opening brace, consuming
the closing brace. -/
def parseMembers : Nat → List Char → Option (List (String × Json) × List Char)
  | 0, _ => none
  | f + 1, cs =>
    match cs with
    | [] => none
    | c :: r =>
      if c = '"' then
        match parseStringChars r with
        | none => none
        | some (k, r2) =>
          match r2 with
          | [] => none
          | c2 :: r3 =>
            if c2 = ':' then
              match parseValue f r3 with
              | none => none
              | some (v, r4) =>
                match r4 with
                | [] => none
                | c3 :: r5 =>
                  if c3 = ',' then
                    (parseMembers f r5).map (fun p => ((String.mk k, v) :: p.1, p.2))
                  else if c3 = '}' then some ([(String.mk k, v)], r5)
                  else none
            else none
      else none

end

/-- Parse a complete JSON document: one value consuming the entire input,
modelling `serde_json::from_str`'s end-of-input check. -/
def parseJson (s : String) : Option Json :=
  match parseValue (s.data.length + 1) s.data with
  | some (j, []) => some j
  | _ => none

/-- The `ApiResp` struct of src/lib.rs lines 8-18: `success: bool`,
`code: i32` (modelled as `Int`; the i32 range is stated where it matters),
`message: String`, `data: Option<serde_json::Value>`. -/
structure ApiResp where
  success : Bool
  code : Int
  message : String
  data : Option Json

/-- Accessor `is_success` (line 21). -/
def ApiResp.is_success (r : ApiResp) : Bool := r.success

/-- Accessor `get_code` (line 23). -/
def ApiResp.get_code (r : ApiResp) : Int := r.code

/-- Accessor `get_message` (line 25). -/
def ApiResp.get_message (r : ApiResp) : String := r.message

/-- Accessor `get_data` (line 27). -/
def ApiResp.get_data (r : ApiResp) : Option Json := r.data

/-- Constructor `ApiResp::success(data)` (lines 58-65). Named `success'`
because the Lean field projection already uses the name `success`. -/
def ApiResp.success' (data : Json) : ApiResp :=
  { success := true, code := 0, message := "", data := some data }

/-- Constructor `ApiResp::suc()` (lines 77-84). -/
def ApiResp.suc : ApiResp :=
  { success := true, code := 0, message := "", data := none }

/-- Constructor `ApiResp::error(code, message)` (lines 102-109). -/
def ApiResp.error (code : Int) (message : String) : ApiResp :=
  { success := false, code := code, message := message, data := none }

/-- Derived `Serialize` for `ApiResp`: the JSON object with the four fields in
declaration order; a `None` payload is emitted as JSON `null` (serde serializes
`Option` as `null`/value). -/
def toValue (r : ApiResp) : Json :=
  .obj [("success", .bool r.success), ("code", .num r.code), ("message", .str r.message),
        ("data", match r.data with | some v => v | none => .null)]

/-- Model of `serde_json::to_string::<ApiResp>`. For `ApiResp` (a struct of
bool / i32 / String / Option<Value> fields) serialization cannot fail, which
the model reflects by always returning `.ok`; the `Except` codomain records
serde's fallible signature that `to_json` matches on. -/
def serde_to_string (r : ApiResp) : Except String String := .ok (render (toValue r))

/-- The body of `ApiResp::to_json` (lines 29-38), factored over the outcome of
`serde_json::to_string(&self)`: on `Ok(json)` return it; on `Err(e)` log
`"序列化json字符串时出错！{e}"` and return `serde_json::to_string` of the fallback
envelope `ApiResp::error(-1, "处理响应结果时出错！")`, whose `.unwrap()` is modelled
by `Except.toOption` (`none` would be a panic). The second component is the
list of emitted log lines. -/
def to_json_result_aux (serRes : Except String String) : Option String × List String :=
  match serRes with
  | .ok json => (some json, [])
  | .error e =>
    ((serde_to_string (ApiResp.error (-1) "处理响应结果时出错！")).toOption,
     ["序列化json字符串时出错！" ++ e])

/-- `ApiResp::to_json` with its log output and possible panic made explicit. -/
def ApiResp.to_json_result (r : ApiResp) : Option String × List String :=
  to_json_result_aux (serde_to_string r)

/-- `ApiResp::to_json` (lines 29-38): the returned JSON string. The `getD ""`
default is never exercised (`to_json_result` always returns `some`). -/
def ApiResp.to_json (r : ApiResp) : String := r.to_json_result.1.getD ""

/-- Accumulator for the derived `Deserialize` of `ApiResp`: each field is
`none` until its key has been seen. -/
structure FieldAcc where
  success? : Option Bool
  code? : Option Int
  message? : Option String
  data? : Option (Option Json)

/-- Field collection of serde's derived deserializer: walk the object members
in order; a wrongly typed field, an out-of-range `code`, or a duplicate field
is an error; unknown fields are ignored; a `data` of JSON `null` is stored as
`None` (serde deserializes `Option<Value>` that way). -/
def readFields : List (String × Json) → FieldAcc → Option FieldAcc
  | [], acc => some acc
  | (k, v) :: rest, acc =>
    if k = "success" then
      match acc.success?, v with
      | none, .bool b => readFields rest { acc with success? := some b }
      | _, _ => none
    else if k = "code" then
      match acc.code?, v with
      | none, .num n =>
        if -2147483648 ≤ n ∧ n < 2147483648 then readFields rest { acc with code? := some n }
        else none
      | _, _ => none
    else if k = "message" then
      match acc.message?, v with
      | none, .str s => readFields rest { acc with message? := some s }
      | _, _ => none
    else if k = "data" then
      match acc.data? with
      | none =>
        readFields rest { acc with data? := some (match v with | .null => none | w => some w) }
      | some _ => none
    else readFields rest acc

/-- Derived `Deserialize` for `ApiResp` from a JSON value: requires an object
with `success`, `code` and `message` present; a missing `data` member defaults
to `None`. -/
def fromValue : Json → Option ApiResp
  | .obj kvs =>
    match readFields kvs ⟨none, none, none, none⟩ with
    | some ⟨some b, some n, some m, d⟩ => some ⟨b, n, m, d.getD none⟩
    | _ => none
  | _ => none

/-- Model of `serde_json::from_str::<ApiResp>`: parse the document, then run
the derived deserializer (errors collapsed to `none`). -/
def from_str (s : String) : Option ApiResp := (parseJson s).bind fromValue

/-- A boxed Rust error (`Box<dyn Error>`): `display` is what `e.to_string()`
returns (the spec calls it the error's description), `debugFmt` is its
`{:?}` debug representation. -/
structure RustError where
  display : String
  debugFmt : String

/-- The alias `DaoResult = Result<ApiResp, Box<dyn Error>>` (line 113). -/
abbrev DaoResult := Except RustError ApiResp

/-- The `TransformResult` impl for `DaoResult` (lines 152-163): on `Ok(r)`
serialize `r`; on `Err(e)` log `"{err_log} {e:?}"` and serialize
`ApiResp::error(-1, e.to_string())`. The final `.unwrap()` is modelled by
`Except.toOption`; the second component is the list of emitted log lines. -/
def to_json_str (res : DaoResult) (err_log : String) : Option String × List String :=
  match res with
  | .ok r => ((serde_to_string r).toOption, [])
  | .error e =>
    ((serde_to_string (ApiResp.error (-1) e.display)).toOption,
     [err_log ++ " " ++ e.debugFmt])

/-- A transaction handle, reduced to the one operation the macros consume: the
outcome of `tx.rollback().await`. -/
structure Tx where
  rollbackResult : Except RustError Unit

/-- Control flow produced by a macro expansion inside the enclosing function:
either fall through to the following statement, or return early with the given
`Result<ApiResp, Box<dyn Error>>`. -/
inductive MacroFlow : Type where
  | fallthrough : MacroFlow
  | earlyReturn (result : Except RustError ApiResp) : MacroFlow

/-- The `rollback!` macro (lines 166-174): on `Err(e)` roll back (the `Nat`
counts rollback invocations) and, if the rollback succeeded, return
`Ok(ApiResp::error(code, e.to_string()))`; a failing rollback propagates its
error through `?` as an early `Err` return. On `Ok(_)` fall through. -/
def rollback {α : Type} (resp : Except RustError α) (tx : Tx) (code : Int) :
    MacroFlow × Nat :=
  match resp with
  | .ok _ => (.fallthrough, 0)
  | .error e =>
    match tx.rollbackResult with
    | .ok _ => (.earlyReturn (.ok (ApiResp.error code e.display)), 1)
    | .error re => (.earlyReturn (.error re), 1)

/-- The successful payload of a mutation, exposing `rows_affected` as the
macro consumes it. -/
structure ExecResult where
  rows_affected : Nat

/-- The `rollback_for_no_match!` macro (lines 176-192): on `Err(e)` behave like
`rollback!`; on `Ok(r)` with `r.rows_affected == 0` roll back and, if the
rollback succeeded, return `Ok(ApiResp::error(code, "未匹配到目标记录"))`;
otherwise fall through. A failing rollback propagates its error through `?`. -/
def rollback_for_no_match (resp : Except RustError ExecResult) (tx : Tx) (code : Int) :
    MacroFlow × Nat :=
  match resp with
  | .error e =>
    match tx.rollbackResult with
    | .ok _ => (.earlyReturn (.ok (ApiResp.error code e.display)), 1)
    | .error re => (.earlyReturn (.error re), 1)
  | .ok r =>
    if r.rows_affected = 0 then
      match tx.rollbackResult with
      | .ok _ => (.earlyReturn (.ok (ApiResp.error code "未匹配到目标记录")), 1)
      | .error re => (.earlyReturn (.error re), 1)
    else (.fallthrough, 0)

/-- How a stored payload survives one serialize/deserialize round trip: serde
represents `Some(Value::Null)` and `None` both as JSON `null`, so a payload of
exactly `Some(Null)` comes back as `None`; every other payload is unchanged. -/
def collapseNullPayload : Option Json → Option Json
  | some .null => none
  | d => d

/-- Folding step of decimal accumulation. -/
def digitVal (acc : Nat) (c : Char) : Nat := acc * 10 + (c.toNat - 48)

/-- The list `cs` does not start with a decimal digit (trivially true when
empty), so a greedy number parse stops exactly at its head. -/
def notDigitStart (cs : List Char) : Prop :=
  ∀ c, cs.head? = some c → c.isDigit = false

theorem digitChar_toNat {n : Nat} (h : n < 10) : (digitChar n).toNat = 48 + n := by
  interval_cases n <;> decide

theorem digitChar_isDigit {n : Nat} (h : n < 10) : (digitChar n).isDigit = true := by
  interval_cases n <;> decide

theorem parseHexDigit_hexChar {m : Nat} (h : m < 16) :
    parseHexDigit (hexChar m) = some m := by
  interval_cases m <;> decide

theorem natDigitsAux_ne_nil {f n : Nat} (h : n < f) : natDigitsAux f n ≠ [] := by
  match f with
  | f + 1 =>
    unfold natDigitsAux
    split
    · simp
    · simp

theorem natDigitsAux_digits {f : Nat} : ∀ {n : Nat}, n < f →
    ∀ c ∈ natDigitsAux f n, c.isDigit = true := by
  induction f with
  | zero => omega
  | succ f ih =>
    intro n hn c hc
    unfold natDigitsAux at hc
    by_cases h : n < 10
    · rw [if_pos h] at hc
      simp only [List.mem_singleton] at hc
      subst hc
      exact digitChar_isDigit h
    · rw [if_neg h] at hc
      rcases List.mem_append.1 hc with h1 | h2
      · exact ih (by omega) c h1
      · simp only [List.mem_singleton] at h2
        subst h2
        exact digitChar_isDigit (by omega)

theorem foldl_natDigitsAux {f : Nat} : ∀ {n : Nat} (acc : Nat), n < f →
    List.foldl digitVal acc (natDigitsAux f n) =
      acc * 10 ^ (natDigitsAux f n).length + n := by
  induction f with
  | zero => omega
  | succ f ih =>
    intro n acc hn
    unfold natDigitsAux
    by_cases h : n < 10
    · rw [if_pos h]
      simp only [List.foldl_cons, List.foldl_nil, List.length_cons, List.length_nil,
        digitVal, digitChar_toNat h, pow_one]
      omega
    · rw [if_neg h]
      rw [List.foldl_append, ih acc (by omega)]
      simp only [List.foldl_cons, List.foldl_nil, digitVal, List.length_append,
        List.length_cons, List.length_nil, digitChar_toNat (show n % 10 < 10 by omega)]
      rw [pow_succ]
      ring_nf
      omega

theorem takeDigitsAux_append {ds : List Char} (hds : ∀ c ∈ ds, c.isDigit = true) :
    ∀ (rest : List Char) (acc : Nat),
      takeDigitsAux (ds ++ rest) acc = takeDigitsAux rest (List.foldl digitVal acc ds) := by
  induction ds with
  | nil => intro rest acc; simp
  | cons c cs ih =>
    intro rest acc
    have hc : c.isDigit = true := hds c (by simp)
    simp only [List.cons_append, takeDigitsAux, hc, if_pos, List.foldl_cons]
    exact ih (fun x hx => hds x (by simp [hx])) rest _

theorem takeDigitsAux_stop {rest : List Char} (h : notDigitStart rest) (acc : Nat) :
    takeDigitsAux rest acc = (acc, rest) := by
  cases rest with
  | nil => rfl
  | cons c cs =>
    have hc := h c rfl
    simp [takeDigitsAux, hc]

theorem parseNatNum_natDigits {n : Nat} {rest : List Char} (h : notDigitStart rest) :
    parseNatNum (natDigits n ++ rest) = some (n, rest) := by
  have hlt : n < n + 1 := Nat.lt_succ_self n
  obtain ⟨c, cs, hcs⟩ : ∃ c cs, natDigitsAux (n + 1) n = c :: cs := by
    cases hh : natDigitsAux (n + 1) n with
    | nil => exact absurd hh (natDigitsAux_ne_nil hlt)
    | cons c cs => exact ⟨c, cs, rfl⟩
  have hall := natDigitsAux_digits hlt
  have hcdig : c.isDigit = true := hall c (by rw [hcs]; simp)
  have hfold := foldl_natDigitsAux (f := n + 1) (n := n) 0 hlt
  rw [hcs] at hfold
  simp only [List.foldl_cons, zero_mul, zero_add, digitVal, Nat.zero_mul] at hfold
  unfold natDigits
  rw [hcs, List.cons_append]
  simp only [parseNatNum, hcdig, if_pos]
  rw [takeDigitsAux_append (fun x hx => hall x (by rw [hcs]; simp [hx])) rest _]
  rw [takeDigitsAux_stop h]
  rw [show List.foldl digitVal (c.toNat - 48) cs = n from hfold]

theorem psc_quote (l : List Char) :
    parseStringChars ('\\' :: '"' :: l) = (parseStringChars l).map (fun p => ('"' :: p.1, p.2)) := by
  rw [parseStringChars.eq_def]
  simp

theorem psc_backslash (l : List Char) :
    parseStringChars ('\\' :: '\\' :: l) =
      (parseStringChars l).map (fun p => ('\\' :: p.1, p.2)) := by
  rw [parseStringChars.eq_def]
  simp

theorem psc_b (l : List Char) :
    parseStringChars ('\\' :: 'b' :: l) =
      (parseStringChars l).map (fun p => ('\x08' :: p.1, p.2)) := by
  rw [parseStringChars.eq_def]
  simp

theorem psc_t (l : List Char) :
    parseStringChars ('\\' :: 't' :: l) =
      (parseStringChars l).map (fun p => ('\t' :: p.1, p.2)) := by
  rw [parseStringChars.eq_def]
  simp

theorem psc_n (l : List Char) :
    parseStringChars ('\\' :: 'n' :: l) =
      (parseStringChars l).map (fun p => ('\n' :: p.1, p.2)) := by
  rw [parseStringChars.eq_def]
  simp

theorem psc_f (l : List Char) :
    parseStringChars ('\\' :: 'f' :: l) =
      (parseStringChars l).map (fun p => ('\x0c' :: p.1, p.2)) := by
  rw [parseStringChars.eq_def]
  simp

theorem psc_r (l : List Char) :
    parseStringChars ('\\' :: 'r' :: l) =
      (parseStringChars l).map (fun p => ('\r' :: p.1, p.2)) := by
  rw [parseStringChars.eq_def]
  simp

theorem psc_u (a b : Nat) (ha : a < 16) (hb : b < 16) (hu : a * 16 + b < 0xD800)
    (l : List Char) :
    parseStringChars ('\\' :: 'u' :: '0' :: '0' :: hexChar a :: hexChar b :: l) =
      (parseStringChars l).map (fun p => (Char.ofNat (a * 16 + b) :: p.1, p.2)) := by
  have h0 : parseHexDigit '0' = some 0 := by decide
  rw [parseStringChars.eq_def]
  simp [h0, parseHexDigit_hexChar ha, parseHexDigit_hexChar hb, hu]

theorem psc_plain (c : Char) (h1 : ¬ c = '"') (h2 : ¬ c = '\\') (h3 : ¬ c.toNat < 32)
    (l : List Char) :
    parseStringChars (c :: l) = (parseStringChars l).map (fun p => (c :: p.1, p.2)) := by
  rw [parseStringChars.eq_def]
  dsimp only
  rw [if_neg h1, if_neg h2, if_neg h3]

theorem parseStringChars_escape :
    ∀ (cs rest : List Char),
      parseStringChars (escapeList cs ++ ('"' :: rest)) = some (cs, rest) := by
  intro cs
  induction cs with
  | nil =>
    intro rest
    rw [show escapeList [] = [] from rfl, List.nil_append, parseStringChars.eq_def]
    simp
  | cons c cs ih =>
    intro rest
    rw [show escapeList (c :: cs) = escapeChar c ++ escapeList cs from rfl, List.append_assoc]
    unfold escapeChar
    by_cases h1 : c = '"'
    · subst h1
      rw [if_pos rfl]
      rw [show ((['\\', '"'] : List Char) ++ (escapeList cs ++ '"' :: rest)) =
        '\\' :: '"' :: (escapeList cs ++ '"' :: rest) from rfl]
      rw [psc_quote, ih rest]
      rfl
    · rw [if_neg h1]
      by_cases h2 : c = '\\'
      · subst h2
        rw [if_pos rfl]
        rw [show ((['\\', '\\'] : List Char) ++ (escapeList cs ++ '"' :: rest)) =
          '\\' :: '\\' :: (escapeList cs ++ '"' :: rest) from rfl]
        rw [psc_backslash, ih rest]
        rfl
      · rw [if_neg h2]
        by_cases h3 : c = '\x08'
        · subst h3
          rw [if_pos rfl]
          rw [show ((['\\', 'b'] : List Char) ++ (escapeList cs ++ '"' :: rest)) =
            '\\' :: 'b' :: (escapeList cs ++ '"' :: rest) from rfl]
          rw [psc_b, ih rest]
          rfl
        · rw [if_neg h3]
          by_cases h4 : c = '\t'
          · subst h4
            rw [if_pos rfl]
            rw [show ((['\\', 't'] : List Char) ++ (escapeList cs ++ '"' :: rest)) =
              '\\' :: 't' :: (escapeList cs ++ '"' :: rest) from rfl]
            rw [psc_t, ih rest]
            rfl
          · rw [if_neg h4]
            by_cases h5 : c = '\n'
            · subst h5
              rw [if_pos rfl]
              rw [show ((['\\', 'n'] : List Char) ++ (escapeList cs ++ '"' :: rest)) =
                '\\' :: 'n' :: (escapeList cs ++ '"' :: rest) from rfl]
              rw [psc_n, ih rest]
              rfl
            · rw [if_neg h5]
              by_cases h6 : c = '\x0c'
              · subst h6
                rw [if_pos rfl]
                rw [show ((['\\', 'f'] : List Char) ++ (escapeList cs ++ '"' :: rest)) =
                  '\\' :: 'f' :: (escapeList cs ++ '"' :: rest) from rfl]
                rw [psc_f, ih rest]
                rfl
              · rw [if_neg h6]
                by_cases h7 : c = '\r'
                · subst h7
                  rw [if_pos rfl]
                  rw [show ((['\\', 'r'] : List Char) ++ (escapeList cs ++ '"' :: rest)) =
                    '\\' :: 'r' :: (escapeList cs ++ '"' :: rest) from rfl]
                  rw [psc_r, ih rest]
                  rfl
                · rw [if_neg h7]
                  by_cases h8 : c.toNat < 0x20
                  · rw [if_pos h8]
                    rw [show ((['\\', 'u', '0', '0', hexChar (c.toNat / 16),
                        hexChar (c.toNat % 16)] : List Char) ++
                        (escapeList cs ++ '"' :: rest)) =
                      '\\' :: 'u' :: '0' :: '0' :: hexChar (c.toNat / 16) ::
                        hexChar (c.toNat % 16) :: (escapeList cs ++ '"' :: rest) from rfl]
                    rw [psc_u (c.toNat / 16) (c.toNat % 16) (by omega) (by omega) (by omega)]
                    rw [ih rest]
                    rw [show c.toNat / 16 * 16 + c.toNat % 16 = c.toNat from by omega]
                    rw [Char.ofNat_toNat]
                    rfl
                  · rw [if_neg h8]
                    rw [show (([c] : List Char) ++ (escapeList cs ++ '"' :: rest)) =
                      c :: (escapeList cs ++ '"' :: rest) from rfl]
                    rw [psc_plain c h1 h2 h8, ih rest]
                    rfl

theorem notDigitStart_nil : notDigitStart [] := by
  intro x hx
  simp at hx

theorem notDigitStart_cons {c : Char} (h : c.isDigit = false) (l : List Char) :
    notDigitStart (c :: l) := by
  intro x hx
  simp only [List.head?] at hx
  cases hx
  exact h

theorem isDigit_ne_starts {c : Char} (h : c.isDigit = true) :
    c ≠ 'n' ∧ c ≠ 't' ∧ c ≠ 'f' ∧ c ≠ '"' ∧ c ≠ '[' ∧ c ≠ '{' ∧ c ≠ '-' := by
  refine ⟨?_, ?_, ?_, ?_, ?_, ?_, ?_⟩ <;> (intro he; subst he; exact absurd h (by decide))

theorem natDigits_cons (n : Nat) :
    ∃ c cs, natDigits n = c :: cs ∧ c.isDigit = true ∧
      (∀ x ∈ cs, x.isDigit = true) := by
  have hlt : n < n + 1 := Nat.lt_succ_self n
  cases hh : natDigitsAux (n + 1) n with
  | nil => exact absurd hh (natDigitsAux_ne_nil hlt)
  | cons c cs =>
    refine ⟨c, cs, hh, ?_, ?_⟩
    · exact natDigitsAux_digits hlt c (by rw [hh]; simp)
    · intro x hx
      exact natDigitsAux_digits hlt x (by rw [hh]; simp [hx])

theorem renderL_head (j : Json) :
    ∃ c cs, renderL j = c :: cs ∧ c ≠ ']' ∧ c ≠ '}' := by
  cases j with
  | null => exact ⟨'n', _, rfl, by decide, by decide⟩
  | bool b =>
    cases b with
    | true => exact ⟨'t', _, rfl, by decide, by decide⟩
    | false => exact ⟨'f', _, rfl, by decide, by decide⟩
  | num n =>
    rw [show renderL (.num n) = intChars n from rfl]
    unfold intChars
    by_cases h : n < 0
    · rw [if_pos h]
      exact ⟨'-', _, rfl, by decide, by decide⟩
    · rw [if_neg h]
      obtain ⟨c, cs, hcs, hc, _⟩ := natDigits_cons n.toNat
      refine ⟨c, cs, hcs, ?_, ?_⟩
      · intro he; subst he; exact absurd hc (by decide)
      · intro he; subst he; exact absurd hc (by decide)
  | str s => exact ⟨'"', _, rfl, by decide, by decide⟩
  | arr elems =>
    cases elems with
    | nil => exact ⟨'[', _, rfl, by decide, by decide⟩
    | cons x xs => exact ⟨'[', _, rfl, by decide, by decide⟩
  | obj members =>
    cases members with
    | nil => exact ⟨'{', _, rfl, by decide, by decide⟩
    | cons kv kvs => exact ⟨'{', _, rfl, by decide, by decide⟩


theorem pv_null (f : Nat) (r : List Char) :
    parseValue (f + 1) ('n' :: 'u' :: 'l' :: 'l' :: r) = some (.null, r) := rfl

theorem pv_true (f : Nat) (r : List Char) :
    parseValue (f + 1) ('t' :: 'r' :: 'u' :: 'e' :: r) = some (.bool true, r) := rfl

theorem pv_false (f : Nat) (r : List Char) :
    parseValue (f + 1) ('f' :: 'a' :: 'l' :: 's' :: 'e' :: r) = some (.bool false, r) := rfl

theorem pv_str (f : Nat) (r : List Char) :
    parseValue (f + 1) ('"' :: r) =
      (parseStringChars r).map (fun p => (.str (String.mk p.1), p.2)) := rfl

theorem pv_arr (f : Nat) (r : List Char) :
    parseValue (f + 1) ('[' :: r) =
      if r.head? = some ']' then some (.arr [], r.tail)
      else (parseElems f r).map (fun p => (.arr p.1, p.2)) := rfl

theorem pv_obj (f : Nat) (r : List Char) :
    parseValue (f + 1) ('{' :: r) =
      if r.head? = some '}' then some (.obj [], r.tail)
      else (parseMembers f r).map (fun p => (.obj p.1, p.2)) := rfl

theorem pv_neg (f : Nat) (r : List Char) :
    parseValue (f + 1) ('-' :: r) =
      (parseNatNum r).map (fun p => (.num (-(p.1 : Int)), p.2)) := rfl

theorem pv_digit (f : Nat) {c : Char} (hc : c.isDigit = true) (r : List Char) :
    parseValue (f + 1) (c :: r) =
      (parseNatNum (c :: r)).map (fun p => (.num (p.1 : Int), p.2)) := by
  obtain ⟨hn, ht, hf', hq, hb, hbr, hm⟩ := isDigit_ne_starts hc
  simp only [parseValue]
  rw [if_neg hn, if_neg ht, if_neg hf', if_neg hq, if_neg hb, if_neg hbr, if_neg hm,
    if_pos hc]

theorem pe_step (f : Nat) (cs : List Char) :
    parseElems (f + 1) cs =
      match parseValue f cs with
      | none => none
      | some (j, r) =>
        match r with
        | [] => none
        | c :: r2 =>
          if c = ',' then (parseElems f r2).map (fun p => (j :: p.1, p.2))
          else if c = ']' then some ([j], r2)
          else none := rfl

theorem pm_step (f : Nat) (cs : List Char) :
    parseMembers (f + 1) cs =
      match cs with
      | [] => none
      | c :: r =>
        if c = '"' then
          match parseStringChars r with
          | none => none
          | some (k, r2) =>
            match r2 with
            | [] => none
            | c2 :: r3 =>
              if c2 = ':' then
                match parseValue f r3 with
                | none => none
                | some (v, r4) =>
                  match r4 with
                  | [] => none
                  | c3 :: r5 =>
                    if c3 = ',' then
                      (parseMembers f r5).map (fun p => ((String.mk k, v) :: p.1, p.2))
                    else if c3 = '}' then some ([(String.mk k, v)], r5)
                    else none
              else none
        else none := rfl

theorem parse_render_fuel :
    ∀ f : Nat,
      (∀ (j : Json) (rest : List Char), (renderL j).length + 1 ≤ f → notDigitStart rest →
        parseValue f (renderL j ++ rest) = some (j, rest)) ∧
      (∀ (x : Json) (xs : List Json) (rest : List Char),
        (renderL x).length + (renderRestL xs).length + 2 ≤ f →
        parseElems f (renderL x ++ (renderRestL xs ++ (']' :: rest))) = some (x :: xs, rest)) ∧
      (∀ (k : String) (v : Json) (kvs : List (String × Json)) (rest : List Char),
        (renderMemberL (k, v)).length + (renderMembersRestL kvs).length + 2 ≤ f →
        parseMembers f (renderMemberL (k, v) ++ (renderMembersRestL kvs ++ ('}' :: rest))) =
          some ((k, v) :: kvs, rest)) := by
  intro f
  induction f using Nat.strong_induction_on with
  | _ f ih =>
    refine ⟨?_, ?_, ?_⟩
    · intro j rest hf hnd
      cases f with
      | zero => exact absurd hf (by omega)
      | succ f =>
        have ihf := ih f (Nat.lt_succ_self f)
        cases j with
        | null =>
          rw [show renderL .null ++ rest = 'n' :: 'u' :: 'l' :: 'l' :: rest from rfl,
            pv_null]
        | bool b =>
          cases b with
          | true =>
            rw [show renderL (.bool true) ++ rest = 't' :: 'r' :: 'u' :: 'e' :: rest
              from rfl, pv_true]
          | false =>
            rw [show renderL (.bool false) ++ rest =
              'f' :: 'a' :: 'l' :: 's' :: 'e' :: rest from rfl, pv_false]
        | num n =>
          rw [show renderL (.num n) = intChars n from rfl]
          unfold intChars
          by_cases hneg : n < 0
          · rw [if_pos hneg, List.cons_append, pv_neg, parseNatNum_natDigits hnd]
            simp only [Option.map_some']
            rw [show (-(((-n).toNat : Nat) : Int)) = n from by omega]
          · rw [if_neg hneg]
            obtain ⟨c, cs, hcs, hc, _⟩ := natDigits_cons n.toNat
            rw [hcs, List.cons_append, pv_digit f hc, ← List.cons_append, ← hcs,
              parseNatNum_natDigits hnd]
            simp only [Option.map_some']
            rw [show ((n.toNat : Nat) : Int) = n from by omega]
        | str s =>
          rw [show renderL (.str s) = '"' :: (escapeList s.data ++ ['"']) from rfl,
            List.cons_append, List.append_assoc, List.singleton_append, pv_str,
            parseStringChars_escape s.data rest]
          simp only [Option.map_some']
        | arr elems =>
          cases elems with
          | nil =>
            rw [show renderL (.arr []) ++ rest = '[' :: ']' :: rest from rfl, pv_arr]
            simp
          | cons x xs =>
            rw [show renderL (.arr (x :: xs)) =
              '[' :: ((renderL x ++ renderRestL xs) ++ [']']) from rfl] at hf ⊢
            rw [List.cons_append, List.append_assoc, List.append_assoc,
              List.singleton_append, pv_arr]
            obtain ⟨hc, hcs, hhead, hne1, _⟩ := renderL_head x
            rw [if_neg (show ¬ (renderL x ++ (renderRestL xs ++ ']' :: rest)).head? =
                some ']' from by
              rw [hhead, List.cons_append]
              simp [hne1])]
            have hfuel : (renderL x).length + (renderRestL xs).length + 2 ≤ f := by
              simp only [List.length_cons, List.length_append] at hf
              omega
            rw [ihf.2.1 x xs rest hfuel]
            simp only [Option.map_some']
        | obj members =>
          cases members with
          | nil =>
            rw [show renderL (.obj []) ++ rest = '{' :: '}' :: rest from rfl, pv_obj]
            simp
          | cons kv kvs =>
            obtain ⟨k, v⟩ := kv
            rw [show renderL (.obj ((k, v) :: kvs)) =
              '{' :: ((renderMemberL (k, v) ++ renderMembersRestL kvs) ++ ['}']) from rfl]
              at hf ⊢
            rw [List.cons_append, List.append_assoc, List.append_assoc,
              List.singleton_append, pv_obj]
            rw [if_neg (show ¬ (renderMemberL (k, v) ++
                (renderMembersRestL kvs ++ '}' :: rest)).head? = some '}' from by
              rw [show renderMemberL (k, v) =
                '"' :: ((escapeList k.data ++ ['"', ':']) ++ renderL v) from rfl]
              rw [List.cons_append]
              simp)]
            have hfuel : (renderMemberL (k, v)).length +
                (renderMembersRestL kvs).length + 2 ≤ f := by
              simp only [List.length_cons, List.length_append] at hf
              omega
            rw [ihf.2.2 k v kvs rest hfuel]
            simp only [Option.map_some']
    · intro x xs rest hf
      cases f with
      | zero => exact absurd hf (by omega)
      | succ f =>
        have ihf := ih f (Nat.lt_succ_self f)
        rw [pe_step]
        have hnd : notDigitStart (renderRestL xs ++ (']' :: rest)) := by
          cases xs with
          | nil =>
            rw [show renderRestL [] = [] from rfl, List.nil_append]
            exact notDigitStart_cons (by decide) rest
          | cons y ys =>
            rw [show renderRestL (y :: ys) = ',' :: (renderL y ++ renderRestL ys) from rfl,
              List.cons_append]
            exact notDigitStart_cons (by decide) _
        have hfv : (renderL x).length + 1 ≤ f := by omega
        rw [ihf.1 x (renderRestL xs ++ (']' :: rest)) hfv hnd]
        cases xs with
        | nil =>
          rw [show renderRestL [] = [] from rfl, List.nil_append]
          dsimp only
          rw [if_neg (by decide : ¬ (']' : Char) = ','), if_pos rfl]
        | cons y ys =>
          rw [show renderRestL (y :: ys) = ',' :: (renderL y ++ renderRestL ys) from rfl,
            List.cons_append, List.append_assoc]
          dsimp only
          rw [if_pos rfl]
          have hfuel : (renderL y).length + (renderRestL ys).length + 2 ≤ f := by
            have hlen : (renderRestL (y :: ys)).length =
                1 + ((renderL y).length + (renderRestL ys).length) := by
              rw [show renderRestL (y :: ys) = ',' :: (renderL y ++ renderRestL ys) from rfl]
              simp
              omega
            omega
          rw [ihf.2.1 y ys rest hfuel]
          simp only [Option.map_some']
    · intro k v kvs rest hf
      cases f with
      | zero => exact absurd hf (by omega)
      | succ f =>
        have ihf := ih f (Nat.lt_succ_self f)
        rw [show renderMemberL (k, v) =
          '"' :: ((escapeList k.data ++ ['"', ':']) ++ renderL v) from rfl] at hf ⊢
        rw [List.cons_append, List.append_assoc, List.append_assoc]
        rw [show (['"', ':'] : List Char) ++ (renderL v ++
            (renderMembersRestL kvs ++ '}' :: rest)) =
          '"' :: ':' :: (renderL v ++ (renderMembersRestL kvs ++ '}' :: rest)) from rfl]
        rw [pm_step]
        dsimp only
        rw [if_pos rfl]
        rw [parseStringChars_escape k.data
          (':' :: (renderL v ++ (renderMembersRestL kvs ++ '}' :: rest)))]
        dsimp only
        rw [if_pos rfl]
        have hnd : notDigitStart (renderMembersRestL kvs ++ ('}' :: rest)) := by
          cases kvs with
          | nil =>
            rw [show renderMembersRestL [] = [] from rfl, List.nil_append]
            exact notDigitStart_cons (by decide) rest
          | cons kv2 kvs2 =>
            rw [show renderMembersRestL (kv2 :: kvs2) =
              ',' :: renderMemberL kv2 ++ renderMembersRestL kvs2 from rfl,
              List.cons_append]
            exact notDigitStart_cons (by decide) _
        have hfv : (renderL v).length + 1 ≤ f := by
          simp only [List.length_cons, List.length_append] at hf
          omega
        rw [ihf.1 v (renderMembersRestL kvs ++ ('}' :: rest)) hfv hnd]
        cases kvs with
        | nil =>
          rw [show renderMembersRestL [] = [] from rfl, List.nil_append]
          dsimp only
          rw [if_neg (by decide : ¬ ('}' : Char) = ','), if_pos rfl]
        | cons kv2 kvs2 =>
          obtain ⟨k2, v2⟩ := kv2
          rw [show renderMembersRestL ((k2, v2) :: kvs2) =
            ',' :: (renderMemberL (k2, v2) ++ renderMembersRestL kvs2) from rfl,
            List.cons_append, List.append_assoc]
          dsimp only
          rw [if_pos rfl]
          have hfuel : (renderMemberL (k2, v2)).length +
              (renderMembersRestL kvs2).length + 2 ≤ f := by
            have hlen : (renderMembersRestL ((k2, v2) :: kvs2)).length =
                1 + ((renderMemberL (k2, v2)).length + (renderMembersRestL kvs2).length) := by
              rw [show renderMembersRestL ((k2, v2) :: kvs2) =
                ',' :: (renderMemberL (k2, v2) ++ renderMembersRestL kvs2) from rfl]
              simp
              omega
            omega
          rw [ihf.2.2 k2 v2 kvs2 rest hfuel]
          simp only [Option.map_some']

theorem parseJson_render (j : Json) : parseJson (render j) = some j := by
  have h := (parse_render_fuel ((renderL j).length + 1)).1 j [] (le_refl _) notDigitStart_nil
  rw [List.append_nil] at h
  show (match parseValue ((renderL j).length + 1) (renderL j) with
    | some (j, []) => some j
    | _ => none) = some j
  rw [h]

theorem readFields_envelope (b : Bool) (c : Int) (m : String) (w : Json) :
    readFields [("success", .bool b), ("code", .num c), ("message", .str m), ("data", w)]
      ⟨none, none, none, none⟩ =
      if -2147483648 ≤ c ∧ c < 2147483648 then
        some ⟨some b, some c, some m, some (match w with | .null => none | ww => some ww)⟩
      else none := rfl

theorem fromValue_toValue (b : Bool) (c : Int) (m : String) (d : Option Json)
    (h1 : -2147483648 ≤ c) (h2 : c < 2147483648) :
    fromValue (toValue ⟨b, c, m, d⟩) = some ⟨b, c, m, collapseNullPayload d⟩ := by
  rw [show toValue ⟨b, c, m, d⟩ =
    Json.obj [("success", .bool b), ("code", .num c), ("message", .str m),
      ("data", match d with | some v => v | none => Json.null)] from rfl]
  simp only [fromValue]
  rw [readFields_envelope, if_pos ⟨h1, h2⟩]
  cases d with
  | none => rfl
  | some v => cases v <;> rfl

theorem from_str_to_json (b : Bool) (c : Int) (m : String) (d : Option Json)
    (h1 : -2147483648 ≤ c) (h2 : c < 2147483648) :
    from_str (ApiResp.to_json ⟨b, c, m, d⟩) = some ⟨b, c, m, collapseNullPayload d⟩ := by
  rw [show ApiResp.to_json ⟨b, c, m, d⟩ = render (toValue ⟨b, c, m, d⟩) from rfl]
  unfold from_str
  rw [parseJson_render]
  show fromValue (toValue ⟨b, c, m, d⟩) = _
  exact fromValue_toValue b c m d h1 h2

/-- C3: `success(data)` returns an Envelope with `success=true, code=0, message=""`,
`data=Some(data)`; `suc()` returns `success=true, code=0, message="", data=None`;
and for every `(code, message)`, `error(code, message)` returns `success=false`,
that code, that message, and `data=None`, with no validation of the arguments. -/
theorem C3_constructor_postconditions :
    (∀ v : Json, ApiResp.success' v =
      { success := true, code := 0, message := "", data := some v }) ∧
    ApiResp.suc = { success := true, code := 0, message := "", data := none } ∧
    (∀ (c : Int) (m : String), ApiResp.error c m =
      { success := false, code := c, message := m, data := none }) :=
  ⟨fun _ => rfl, rfl, fun _ _ => rfl⟩

/-- C4: serializing `success(json_array([1,1,3,5]))` yields exactly the string
with the four fields in declaration order and the array payload, and serializing
`error(-1, "transaction failed")` yields exactly the failure string with the
absent payload emitted as `data:null`. -/
theorem C4_wire_format :
    ApiResp.to_json
        (ApiResp.success' (Json.arr [Json.num 1, Json.num 1, Json.num 3, Json.num 5])) =
      "\x7b\"success\":true,\"code\":0,\"message\":\"\",\"data\":[1,1,3,5]\x7d" ∧
    ApiResp.to_json (ApiResp.error (-1) "transaction failed") =
      "\x7b\"success\":false,\"code\":-1,\"message\":\"transaction failed\",\"data\":null\x7d" :=
  ⟨rfl, rfl⟩

/-- C2: `to_json_str` on `Ok(e)` returns exactly the serialization of `e` (and
logs nothing); on `Err(err)` it returns exactly the serialization of
`error(-1, err.description())` and emits exactly one log entry, consisting of
the supplied context label followed by the error's debug representation. -/
theorem C2_transform_result :
    (∀ (r : ApiResp) (lg : String), to_json_str (.ok r) lg = (some (ApiResp.to_json r), [])) ∧
    (∀ (e : RustError) (lg : String),
      to_json_str (.error e) lg =
        (some (ApiResp.to_json (ApiResp.error (-1) e.display)), [lg ++ " " ++ e.debugFmt])) :=
  ⟨fun _ _ => rfl, fun _ _ => rfl⟩

/-- C5: whenever the serialization step inside `to_json` fails, `to_json` logs
the failure and returns the serialized form of the fallback envelope
`error(-1, "处理响应结果时出错！")` (the spec's "processing response failed") instead
of propagating the error; and `to_json` always returns a string, namely the
rendering of its envelope. -/
theorem C5_to_json_fallback :
    (∀ e : String, to_json_result_aux (.error e) =
      (some (ApiResp.to_json (ApiResp.error (-1) "处理响应结果时出错！")),
       ["序列化json字符串时出错！" ++ e])) ∧
    (∀ r : ApiResp, ApiResp.to_json r = render (toValue r)) :=
  ⟨fun _ => rfl, fun _ => rfl⟩

/-- C10: serializing an `ApiResp` never fails (`serde_to_string` always returns
`Ok`), so the error branch of `to_json` is unreachable (`to_json_result` takes
the `Ok` branch and logs nothing) and the `.unwrap()` in `to_json_str` never
panics (its result is always `some`): both functions always return a string. -/
theorem C10_serialization_total :
    (∀ r : ApiResp, serde_to_string r = .ok (render (toValue r))) ∧
    (∀ r : ApiResp, ApiResp.to_json_result r = (some (render (toValue r)), [])) ∧
    (∀ (res : DaoResult) (lg : String), ((to_json_str res lg).1).isSome = true) := by
  refine ⟨fun _ => rfl, fun _ => rfl, ?_⟩
  intro res lg
  cases res <;> rfl

/-- C8: in both transaction-guard helpers, whenever an outcome triggers a
rollback and the rollback itself fails, the enclosing operation returns the
rollback error as a hard `Err` (not an `Ok`-wrapped envelope). -/
theorem C8_rollback_failure_hard_error :
    (∀ (e re : RustError) (code : Int),
      rollback (α := Unit) (.error e) ⟨.error re⟩ code = (.earlyReturn (.error re), 1)) ∧
    (∀ (e re : RustError) (code : Int),
      rollback_for_no_match (.error e) ⟨.error re⟩ code = (.earlyReturn (.error re), 1)) ∧
    (∀ (re : RustError) (code : Int),
      rollback_for_no_match (.ok ⟨0⟩) ⟨.error re⟩ code = (.earlyReturn (.error re), 1)) :=
  ⟨fun _e _re _code => rfl, fun _e _re _code => rfl, fun _re _code => rfl⟩

/-- C6 as stated is false at a transaction handle whose rollback fails: the
error outcome does trigger exactly one rollback, but the enclosing operation
returns the rollback error as `Err`, not `Ok(error(7, "step failed"))`. -/
theorem C6_counterexample :
    rollback (α := Unit) (.error ⟨"step failed", "StepFailed"⟩)
        ⟨.error ⟨"connection lost", "ConnLost"⟩⟩ 7 =
      (.earlyReturn (.error ⟨"connection lost", "ConnLost"⟩), 1) ∧
    ¬ (rollback (α := Unit) (.error ⟨"step failed", "StepFailed"⟩)
        ⟨.error ⟨"connection lost", "ConnLost"⟩⟩ 7 =
      (.earlyReturn (.ok (ApiResp.error 7 "step failed")), 1)) := by
  refine ⟨rfl, ?_⟩
  intro h
  simp [rollback] at h

/-- C6 amended: on an error outcome the rollback is invoked exactly once and,
provided the rollback itself succeeds, the enclosing operation immediately
returns `Ok(error(code, e.to_string()))`; on a success outcome no rollback
occurs and control falls through. (A failing rollback instead returns the
rollback error as `Err`.) -/
theorem C6_rollback_amended :
    (∀ (e : RustError) (code : Int),
      rollback (α := Unit) (.error e) ⟨.ok ()⟩ code =
        (.earlyReturn (.ok (ApiResp.error code e.display)), 1)) ∧
    (∀ (α : Type) (a : α) (tx : Tx) (code : Int),
      rollback (.ok a) tx code = (.fallthrough, 0)) :=
  ⟨fun _ _ => rfl, fun _ _ _ _ => rfl⟩

/-- C7 as stated is false at a transaction handle whose rollback fails: the
error outcome does trigger exactly one rollback, but the enclosing operation
returns the rollback error as `Err`, not `Ok(error(9, "db down"))`. -/
theorem C7_counterexample :
    rollback_for_no_match (.error ⟨"db down", "DbDown"⟩)
        ⟨.error ⟨"socket closed", "SocketClosed"⟩⟩ 9 =
      (.earlyReturn (.error ⟨"socket closed", "SocketClosed"⟩), 1) ∧
    ¬ (rollback_for_no_match (.error ⟨"db down", "DbDown"⟩)
        ⟨.error ⟨"socket closed", "SocketClosed"⟩⟩ 9 =
      (.earlyReturn (.ok (ApiResp.error 9 "db down")), 1)) := by
  refine ⟨rfl, ?_⟩
  intro h
  simp [rollback_for_no_match] at h

/-- C7 amended: on an error outcome the rollback is invoked exactly once and,
provided the rollback itself succeeds, the enclosing operation returns
`Ok(error(code, e.to_string()))`; on a success outcome with zero rows affected
the rollback is invoked exactly once and, provided it succeeds, the enclosing
operation returns `Ok(error(code, "未匹配到目标记录"))` (the spec's "no matching
record"); on a success outcome with a positive row count no rollback occurs and
control falls through. (A failing rollback instead returns its error as `Err`.) -/
theorem C7_rollback_no_match_amended :
    (∀ (e : RustError) (code : Int),
      rollback_for_no_match (.error e) ⟨.ok ()⟩ code =
        (.earlyReturn (.ok (ApiResp.error code e.display)), 1)) ∧
    (∀ code : Int,
      rollback_for_no_match (.ok ⟨0⟩) ⟨.ok ()⟩ code =
        (.earlyReturn (.ok (ApiResp.error code "未匹配到目标记录")), 1)) ∧
    (∀ (n : Nat) (tx : Tx) (code : Int),
      rollback_for_no_match (.ok ⟨n + 1⟩) tx code = (.fallthrough, 0)) :=
  ⟨fun _ _ => rfl, fun _ => rfl, fun _ _ _ => rfl⟩

/-- C9: the invariant "success = false implies data is absent" holds for every
envelope built by the three constructors, but the deserialization entry point
does not enforce it: the JSON document with `success:false` and `data:5`
deserializes to an envelope with `success = false` and a present payload. -/
theorem C9_invariant_not_enforced_on_deserialize :
    (∀ v : Json, (ApiResp.success' v).success = true) ∧
    (ApiResp.suc.success = true ∧ ApiResp.suc.data = none) ∧
    (∀ (c : Int) (m : String),
      (ApiResp.error c m).success = false ∧ (ApiResp.error c m).data = none) ∧
    from_str "\x7b\"success\":false,\"code\":1,\"message\":\"x\",\"data\":5\x7d" =
      some { success := false, code := 1, message := "x", data := some (Json.num 5) } :=
  ⟨fun _ => rfl, ⟨rfl, rfl⟩, fun _ _ => ⟨rfl, rfl⟩, rfl⟩

/-- C1 as stated is false at the payload `v = JSON null`: `success(null)` holds
`data = Some(Null)`, its serialization emits `data:null`, and deserializing
that string yields an envelope whose `data` is `None`, not `Some(Null)`. -/
theorem C1_counterexample :
    (ApiResp.success' Json.null).data = some Json.null ∧
    ApiResp.to_json (ApiResp.success' Json.null) =
      "\x7b\"success\":true,\"code\":0,\"message\":\"\",\"data\":null\x7d" ∧
    from_str "\x7b\"success\":true,\"code\":0,\"message\":\"\",\"data\":null\x7d" =
      some { success := true, code := 0, message := "", data := none } ∧
    some Json.null ≠ (none : Option Json) := by
  refine ⟨rfl, rfl, rfl, ?_⟩
  simp

/-- C1 amended: for every envelope produced by the three constructors,
deserializing the serialized JSON string reproduces `success`, `code` and
`message` exactly, and reproduces `data` exactly except that a payload of
exactly JSON null comes back absent (serde represents `Some(Null)` and `None`
identically as `null`): deserializing `serialize(success(v))` yields
`success=true` and `data=Some(v)` for every `v` other than JSON null, while for
`v = null` it yields `data=None`; `suc()` and (for every i32 code) `error(code,
message)` round-trip exactly. -/
theorem C1_round_trip_amended :
    (∀ v : Json, from_str (ApiResp.to_json (ApiResp.success' v)) =
      some { success := true, code := 0, message := "",
             data := collapseNullPayload (some v) }) ∧
    from_str (ApiResp.to_json ApiResp.suc) = some ApiResp.suc ∧
    (∀ (c : Int) (m : String), -2147483648 ≤ c → c < 2147483648 →
      from_str (ApiResp.to_json (ApiResp.error c m)) = some (ApiResp.error c m)) := by
  refine ⟨?_, ?_, ?_⟩
  · intro v
    exact from_str_to_json true 0 "" (some v) (by omega) (by omega)
  · exact from_str_to_json true 0 "" none (by omega) (by omega)
  · intro c m h1 h2
    exact from_str_to_json false c m none h1 h2

/-- Witness for the amended C1: the hypotheses hold and the round trip goes
through at the concrete envelope `error(-7, "boom")`. -/
theorem C1_round_trip_amended_witness :
    (-2147483648 ≤ (-7 : Int) ∧ (-7 : Int) < 2147483648) ∧
    from_str (ApiResp.to_json (ApiResp.error (-7) "boom")) =
      some (ApiResp.error (-7) "boom") :=
  ⟨by decide, C1_round_trip_amended.2.2 (-7) "boom" (by decide) (by decide)⟩
